import Mathlib

/-!
Shallow embedding of the mikrotik-api client library (Rust) for verification:
the word/length codec (`src/protocol/word.rs`), the command encoder
(`src/protocol/command.rs`) and the connection actor (`src/device.rs`).
Byte buffers are `List Nat` with each element a byte value (< 256); machine
integers are `Nat` with explicit masking where the source relies on fixed
width.  Fallible code returns `Except`/dedicated result types; a Rust panic
from out-of-bounds slice indexing is modelled by an explicit `panicOOB`
outcome.
-/

namespace Mikrotik

/-- Bytes are natural numbers; buffers coming from the wire hold values < 256. -/
abbrev Byte := Nat

/-- Byte list of an ASCII string literal. -/
def strBytes (s : String) : List Byte := s.data.map Char.toNat

/-- Mirrors `WordType` from `src/protocol/word.rs`. -/
inductive WordType
  | tag
  | category
  | attributeW
  | messageW
deriving DecidableEq, Repr

/-- Mirrors `WordCategory` from `src/protocol/word.rs`. -/
inductive WordCategory
  | done
  | reply
  | trap
  | fatal
deriving DecidableEq, Repr

/-- Mirrors `MissingWord` from `src/protocol/error.rs`. -/
inductive MissingWord
  | tag
  | category
  | message
deriving DecidableEq, Repr

/-- Mirrors `ProtocolError` from `src/protocol/error.rs`.  `invalidTag` stands
for the `InvalidTag(ParseIntError)` variant (the integer-parse failure payload
is not observed by any claim). -/
inductive ProtocolError
  | invalidTag
  | invalidTagDigits (bytes : List Byte)
  | invalidCategory (bytes : List Byte)
  | prefixLength
  | incomplete
  | incompleteSentence (w : MissingWord)
  | wordSequence (word : WordType) (expected : List WordType)
  | unknownTag (tag : Nat)
  | invalidAttributeInTrap (key : List Byte)
  | missingCategoryInTrap
  | missingMessageInTrap
deriving DecidableEq, Repr

/-- Mirrors `Word<'a>` from `src/protocol/word.rs`; borrowed slices become
owned byte lists. -/
inductive Word
  | category (c : WordCategory)
  | tag (t : Nat)
  | attributeWord (key : List Byte) (value : Option (List Byte))
  | messageWord (bytes : List Byte)
deriving DecidableEq, Repr

/-- Mirrors `Word::word_type`. -/
def Word.wordType : Word → WordType
  | .category _ => .category
  | .tag _ => .tag
  | .attributeWord _ _ => .attributeW
  | .messageWord _ => .messageW

/-- Mirrors `<[u8]>::strip_prefix`. -/
def stripPre (p bs : List Byte) : Option (List Byte) :=
  if p.isPrefixOf bs then some (bs.drop p.length) else none

/-- Mirrors `u16::from_str` as applied in `Word::try_from` (`.parse()` on the
lossy-decoded digit string): one optional leading `+`, then at least one ASCII
digit, value must fit in a `u16`. -/
def parseU16 (bs : List Byte) : Option Nat :=
  let digits := if bs.head? = some 43 then bs.tail else bs
  if digits.isEmpty then none
  else if digits.all (fun b => decide (48 ≤ b) && decide (b ≤ 57)) then
    let v := digits.foldl (fun acc b => acc * 10 + (b - 48)) 0
    if v ≤ 65535 then some v else none
  else none

/-- Mirrors `WordCategory::try_from`. -/
def WordCategory.tryFrom (bs : List Byte) : Except ProtocolError WordCategory :=
  if bs = strBytes "done" then .ok .done
  else if bs = strBytes "re" then .ok .reply
  else if bs = strBytes "trap" then .ok .trap
  else if bs = strBytes "fatal" then .ok .fatal
  else .error (.invalidCategory bs)

/-- Mirrors the `splitn(2, |&b| b == b'=')` call in `Word::try_from`: split at
the first `=` (byte 61); the part after it is absent when no `=` occurs. -/
def splitOnceEq : List Byte → List Byte × Option (List Byte)
  | [] => ([], none)
  | b :: rest =>
    if b = 61 then ([], some rest)
    else
      let kv := splitOnceEq rest
      (b :: kv.1, kv.2)

/-- Mirrors `Word::try_from` from `src/protocol/word.rs`: prefix rule
`.tag=` / `=` / `!` / anything else, in that order. -/
def Word.tryFrom (value : List Byte) : Except ProtocolError Word :=
  match stripPre (strBytes ".tag=") value with
  | some tagBytes =>
    if tagBytes.all (fun b => decide (b < 128)) then
      match parseU16 tagBytes with
      | some t => .ok (.tag t)
      | none => .error .invalidTag
    else .error (.invalidTagDigits tagBytes)
  | none =>
    match stripPre (strBytes "=") value with
    | some content =>
      let kv := splitOnceEq content
      .ok (.attributeWord kv.1 kv.2)
    | none =>
      match stripPre (strBytes "!") value with
      | some cat =>
        match WordCategory.tryFrom cat with
        | .ok c => .ok (.category c)
        | .error e => .error e
      | none => .ok (.messageWord value)

/-- Result of `read_length`; `panicOOB` models the Rust panic raised by an
out-of-bounds slice index `data[i]`. -/
inductive LenRead
  | ok (len : Nat) (inc : Nat)
  | err (e : ProtocolError)
  | panicOOB
deriving DecidableEq, Repr

/-- Mirrors `read_length` from `src/protocol/word.rs`.  The source indexes
`data[0]`..`data[4]` without bounds checks; every such access is modelled with
`List.get?`, an absent index being the panic.  Bit masks are the 32-bit
complements used by the source (`c &= !0xC0` and friends); the shift-and-add
accumulation cannot overflow a `u32`, so plain `Nat` arithmetic is exact. -/
def read_length (data : List Byte) : LenRead :=
  match data[0]? with
  | none => .panicOOB
  | some c =>
    if c.land 0x80 = 0x00 then .ok c 1
    else if c.land 0xC0 = 0x80 then
      match data[1]? with
      | some b1 => .ok ((c.land 0xFFFFFF3F) * 256 + b1) 2
      | none => .panicOOB
    else if c.land 0xE0 = 0xC0 then
      match data[1]?, data[2]? with
      | some b1, some b2 => .ok (((c.land 0xFFFFFF1F) * 256 + b1) * 256 + b2) 3
      | _, _ => .panicOOB
    else if c.land 0xF0 = 0xE0 then
      match data[1]?, data[2]?, data[3]? with
      | some b1, some b2, some b3 =>
        .ok ((((c.land 0xFFFFFF0F) * 256 + b1) * 256 + b2) * 256 + b3) 4
      | _, _, _ => .panicOOB
    else if c.land 0xF8 = 0xF0 then
      match data[1]?, data[2]?, data[3]?, data[4]? with
      | some b1, some b2, some b3, some b4 =>
        .ok (((b1 * 256 + b2) * 256 + b3) * 256 + b4) 5
      | _, _, _, _ => .panicOOB
    else .err .prefixLength

/-- Result of `next_sentence`; `err .incomplete` is the non-error signal the
caller treats as "wait for more bytes", `panicOOB` the propagated panic. -/
inductive ParseResult
  | ok (words : List Word) (consumed : Nat)
  | err (e : ProtocolError)
  | panicOOB
deriving DecidableEq, Repr

/-- Loop body of `next_sentence` (the `WordIterator` driven to a terminator).
`fuel` only bounds the recursion; `data.length + 1` iterations always suffice
because every parsed word consumes at least one byte, so the fuel-exhausted
arm is unreachable and conservatively reports `incomplete`. -/
def sentenceLoop (data : List Byte) : Nat → Nat → List Word → ParseResult
  | 0, _, _ => .err .incomplete
  | fuel + 1, idx, acc =>
    if idx ≥ data.length then .err .incomplete
    else
      match read_length (data.drop idx) with
      | .panicOOB => .panicOOB
      | .err e => .err e
      | .ok length inc =>
        if length + inc + idx > data.length then .err .incomplete
        else if length = 0 then .ok acc (idx + inc)
        else
          match Word.tryFrom ((data.drop (idx + inc)).take length) with
          | .ok w => sentenceLoop data fuel (idx + inc + length) (acc ++ [w])
          | .error e => .err e

/-- Mirrors `next_sentence` from `src/protocol/word.rs`. -/
def next_sentence (data : List Byte) : ParseResult :=
  sentenceLoop data (data.length + 1) 0 []

/-- Mirrors `TrapCategory` from `src/protocol/word.rs`. -/
inductive TrapCategory
  | missingItemOrCommand
  | argumentValueFailure
  | executionInterrupted
  | scriptingError
  | generalError
  | apiError
  | ttyError
  | returnValue
deriving DecidableEq, Repr

/-- Mirrors `TrapCategory::try_from` (single ASCII digit codes `0`..`7`). -/
def TrapCategory.tryFrom (bs : List Byte) : Option TrapCategory :=
  if bs = strBytes "0" then some .missingItemOrCommand
  else if bs = strBytes "1" then some .argumentValueFailure
  else if bs = strBytes "2" then some .executionInterrupted
  else if bs = strBytes "3" then some .scriptingError
  else if bs = strBytes "4" then some .generalError
  else if bs = strBytes "5" then some .apiError
  else if bs = strBytes "6" then some .ttyError
  else if bs = strBytes "7" then some .returnValue
  else none

/-! Command encoder, from `src/protocol/command.rs`.  `CommandBuffer` is a
byte list; `WordContent`/`WordSequenceItem` sequences are flattened to the
byte concatenation they write. -/

/-- Mirrors `CommandBuffer::write_len`.  The source argument is a `u32`, hence
the initial reduction modulo 2^32; the masked big-endian byte extraction is
verbatim. -/
def write_len (len0 : Nat) : List Byte :=
  let len := len0 % 4294967296
  if len ≤ 0x7F then [len]
  else if len ≤ 0x3FFF then
    let l := len.lor 0x8000
    [(l >>> 8).land 0xFF, l.land 0xFF]
  else if len ≤ 0x1FFFFF then
    let l := len.lor 0xC00000
    [(l >>> 16).land 0xFF, (l >>> 8).land 0xFF, l.land 0xFF]
  else if len ≤ 0xFFFFFFF then
    let l := len.lor 0xE0000000
    [(l >>> 24).land 0xFF, (l >>> 16).land 0xFF, (l >>> 8).land 0xFF, l.land 0xFF]
  else
    [0xF0, (len >>> 24).land 0xFF, (len >>> 16).land 0xFF, (len >>> 8).land 0xFF,
      len.land 0xFF]

/-- Mirrors `CommandBuffer::write_word`: length prefix followed by the word
bytes, appended to the buffer. -/
def write_word (buf w : List Byte) : List Byte :=
  buf ++ write_len w.length ++ w

/-- Decimal ASCII rendering of a tag, as `u16::to_string` produces. -/
def decimalBytes (n : Nat) : List Byte := strBytes (toString n)

/-- Mirrors `CommandBuilder` (tag plus growing `CommandBuffer`). -/
structure CommandBuilder where
  tag : Nat
  cmd : List Byte
deriving DecidableEq, Repr

/-- Mirrors `Command`: the frozen tag/data pair produced by `build`. -/
structure Command where
  tag : Nat
  data : List Byte
deriving DecidableEq, Repr

/-- Mirrors `CommandBuilder::new`: the command-path word then the
`.tag=<decimal>` word. -/
def CommandBuilder.new (tag : Nat) (command : List Byte) : CommandBuilder :=
  { tag := tag
    cmd := write_word (write_word [] command) (strBytes ".tag=" ++ decimalBytes tag) }

/-- Mirrors `CommandBuilder::attribute`: writes the word `=key=value`. -/
def CommandBuilder.attributeKV (b : CommandBuilder) (key value : List Byte) :
    CommandBuilder :=
  { b with cmd := write_word b.cmd (strBytes "=" ++ key ++ strBytes "=" ++ value) }

/-- Mirrors `CommandBuilder::flag_attribute`: writes the word `=key=`. -/
def CommandBuilder.flagAttribute (b : CommandBuilder) (key : List Byte) :
    CommandBuilder :=
  { b with cmd := write_word b.cmd (strBytes "=" ++ key ++ strBytes "=") }

/-- Mirrors `CommandBuilder::build`: append the zero-length terminator and
freeze. -/
def CommandBuilder.build (b : CommandBuilder) : Command :=
  { tag := b.tag, data := b.cmd ++ write_len 0 }

/-- Mirrors `CommandBuilder::login`. -/
def CommandBuilder.login (tag : Nat) (username : List Byte)
    (password : Option (List Byte)) : Command :=
  let b := (CommandBuilder.new tag (strBytes "/login")).attributeKV
    (strBytes "name") username
  (match password with
   | some pw => b.attributeKV (strBytes "password") pw
   | none => b.flagAttribute (strBytes "password")).build

/-- Mirrors `CommandBuilder::cancel`.  Note the source passes the key bytes
`tag=` (with a trailing `=`) to `attribute`. -/
def CommandBuilder.cancel (tag : Nat) : Command :=
  ((CommandBuilder.new tag (strBytes "/cancel")).attributeKV
    (strBytes "tag=") (decimalBytes tag)).build

/-! Connection actor, from `src/device.rs`.  The caller-supplied
`ParsedMessage` capability is modelled by the canonical `Delivered` type that
records which of its three pure conversions produced the value.  The tag table
(`running_commands : HashMap<u16, Sender<D>>`) is a key/value list whose value
is the receiver-alive flag of the channel: `send` succeeds exactly when the
receiver is still alive.  Socket writes are not observed by the model (no
claim mentions them). -/

/-- Mirrors `crate::error::Error`; the `Io` payload is not observed. -/
inductive DevError
  | io
  | protocol (e : ProtocolError)
  | connectionClosed
  | loginFailed
deriving DecidableEq, Repr

/-- Canonical `ParsedMessage` instance: one constructor per capability
conversion (`parse_message` / `process_error` / `process_trap`). -/
inductive Delivered
  | result (attrs : List (List Byte × Option (List Byte)))
  | errorMsg (e : DevError)
  | trapMsg (category : TrapCategory) (message : List Byte)
deriving DecidableEq, Repr

/-- Tag table: tag ↦ receiver-alive flag of the per-command channel. -/
abbrev Table := List (Nat × Bool)

/-- Mirrors `HashMap::insert` (replaces any entry with the same key). -/
def insertTag (t : Nat) (alive : Bool) (tbl : Table) : Table :=
  (t, alive) :: tbl.filter (fun p => p.1 != t)

/-- Mirrors `HashMap::remove` restricted to the key set. -/
def eraseTag (t : Nat) (tbl : Table) : Table :=
  tbl.filter (fun p => p.1 != t)

/-- Mirrors `notify_error`: drain the whole table, sending the converted error
to every entry; sends to dead receivers only log.  Returns the (empty) table
and the messages delivered to the still-alive receivers. -/
def notify_error (tbl : Table) (e : DevError) : Table × List (Nat × Delivered) :=
  ([], tbl.filterMap (fun p =>
    if p.2 then some (p.1, Delivered.errorMsg e) else none))

/-- Mirrors `send_message_back`: fail without a tag word, fail on a tag absent
from the table, deliver to an alive receiver, drop the entry silently when the
receiver is gone. -/
def send_message_back (tbl : Table) (found_tag : Option Nat) (msg : Delivered) :
    Except ProtocolError (Table × List (Nat × Delivered)) :=
  match found_tag with
  | none => .error (.incompleteSentence .tag)
  | some tag =>
    match tbl.lookup tag with
    | none => .error (.unknownTag tag)
    | some alive =>
      if alive then .ok (tbl, [(tag, msg)])
      else .ok (eraseTag tag tbl, [])

/-- Body of the `Reply` arm's word loop in `process_sentence`: collect the
(last) tag word and the attribute pairs, rejecting category and message
words. -/
def replyScan : List Word → Option Nat → List (List Byte × Option (List Byte)) →
    Except ProtocolError (Option Nat × List (List Byte × Option (List Byte)))
  | [], t, attrs => .ok (t, attrs)
  | w :: rest, t, attrs =>
    match w with
    | .category _ => .error (.wordSequence .category [.tag, .attributeW])
    | .tag tag => replyScan rest (some tag) attrs
    | .attributeWord k v => replyScan rest t (attrs ++ [(k, v)])
    | .messageWord _ => .error (.wordSequence .messageW [.tag, .attributeW])

/-- Body of the `Trap` arm's word loop in `process_sentence`.  Pattern order
follows the source: `category` with a present value (an unparsable code leaves
`found_category` untouched), then `message` with any value (assignment, so a
valueless `=message` resets it to `none`), then any other attribute key is an
error, as is a `category`-keyed attribute without a value. -/
def trapScan : List Word → Option TrapCategory → Option (List Byte) → Option Nat →
    Except ProtocolError (Option TrapCategory × Option (List Byte) × Option Nat)
  | [], c, m, t => .ok (c, m, t)
  | w :: rest, c, m, t =>
    match w with
    | .category _ => .error (.wordSequence .category [.tag, .attributeW])
    | .tag tag => trapScan rest c m (some tag)
    | .attributeWord key value =>
      if key = strBytes "category" then
        match value with
        | some v =>
          match TrapCategory.tryFrom v with
          | some cat => trapScan rest (some cat) m t
          | none => trapScan rest c m t
        | none => .error (.invalidAttributeInTrap key)
      else if key = strBytes "message" then trapScan rest c value t
      else .error (.invalidAttributeInTrap key)
    | .messageWord _ => .error (.wordSequence .messageW [.tag, .attributeW])

/-- Trap message selection from the collected fields, mirroring the
`match (found_category, found_message)` in the source. -/
def trapMessage (c : Option TrapCategory) (m : Option (List Byte)) : Delivered :=
  match c, m with
  | some category, some message => .trapMsg category message
  | none, _ => .errorMsg (.protocol .missingCategoryInTrap)
  | _, none => .errorMsg (.protocol .missingMessageInTrap)

/-- Mirrors `process_sentence` from `src/device.rs`.  On success it returns
the updated table and the messages delivered to per-tag channels; on a
protocol error the table is untouched (every error in the source is raised
before any mutation). -/
def process_sentence (sentence : List Word) (tbl : Table) :
    Except ProtocolError (Table × List (Nat × Delivered)) :=
  match sentence with
  | [] => .error (.incompleteSentence .category)
  | word :: rest =>
    match word with
    | .category cat =>
      match cat with
      | .done =>
        match rest with
        | [] => .error (.incompleteSentence .tag)
        | w :: _ =>
          match w with
          | .tag t => .ok (eraseTag t tbl, [])
          | _ => .error (.wordSequence w.wordType [.tag])
      | .reply =>
        match replyScan rest none [] with
        | .error e => .error e
        | .ok (found_tag, attributes) =>
          send_message_back tbl found_tag (.result attributes)
      | .trap =>
        match trapScan rest none none none with
        | .error e => .error e
        | .ok (found_category, found_message, found_tag) =>
          send_message_back tbl found_tag (trapMessage found_category found_message)
      | .fatal => .ok (tbl, [])
    | w => .error (.wordSequence w.wordType [.category])

/-! Event loop of the background task spawned by `MikrotikDevice::connect`
(`src/device.rs`, the `tokio::select!` body).  One `step` handles one event of
the select; the state is the retained read buffer, the tag table and the
`running` flag. -/

/-- State owned by the connection task. -/
structure ActorState where
  packetBuf : List Byte
  table : Table
  running : Bool
deriving DecidableEq, Repr

/-- Result of handling one event.  `livelock` models the source's inner parse
loop hitting a non-`Incomplete` error from `next_sentence`: that arm has no
`break`, and re-parsing the same unchanged slice fails identically, so the
loop repeats forever after draining the table (the carried table and messages
are the state at the moment the loop stopped making progress).  `panicOOB`
propagates a parser panic, with the messages delivered before it. -/
inductive LoopOutcome
  | normal (s : ActorState) (msgs : List (Nat × Delivered))
  | livelock (table : Table) (msgs : List (Nat × Delivered))
  | panicOOB (msgs : List (Nat × Delivered))
deriving DecidableEq, Repr

/-- Inner parse loop of the `Ok(_)` read arm: parse sentences from the current
offset, process each, and on `Incomplete` retain the unconsumed suffix.  A
`process_sentence` error logs and clears `running` but the loop continues with
the next sentence, the table unchanged.  Fuel bounds the iterations;
`buf.length + 1` always suffices since every parsed sentence consumes at least
one byte. -/
def readLoop (buf : List Byte) :
    Nat → Nat → Table → Bool → List (Nat × Delivered) → LoopOutcome
  | 0, _, tbl, _, msgs => .livelock tbl msgs
  | fuel + 1, offset, tbl, running, msgs =>
    match next_sentence (buf.drop offset) with
    | .ok sentence inc =>
      match process_sentence sentence tbl with
      | .ok (tbl', newMsgs) =>
        readLoop buf fuel (offset + inc) tbl' running (msgs ++ newMsgs)
      | .error _ =>
        readLoop buf fuel (offset + inc) tbl false msgs
    | .err .incomplete =>
      let buf' := if offset < buf.length then buf.drop offset else []
      .normal ⟨buf', tbl, running⟩ msgs
    | .err e =>
      let n := notify_error tbl (.protocol e)
      .livelock n.1 (msgs ++ n.2)
    | .panicOOB => .panicOOB msgs

/-- Events of the `tokio::select!`: result of `read_buf` (EOF, error, or
fresh bytes appended to the buffer), a submitted command (with the write
outcome), or the command queue closing. -/
inductive Event
  | readEof
  | readErr
  | readOk (bytes : List Byte)
  | cmdRecv (tag : Nat) (alive : Bool) (writeOk : Bool)
  | queueClosed
deriving DecidableEq, Repr

/-- One iteration of the event loop in the spawned task. -/
def step (s : ActorState) (ev : Event) : LoopOutcome :=
  match ev with
  | .readEof =>
    let n := notify_error s.table .connectionClosed
    .normal ⟨s.packetBuf, n.1, false⟩ n.2
  | .readErr =>
    let n := notify_error s.table .io
    .normal ⟨s.packetBuf, n.1, false⟩ n.2
  | .readOk bytes =>
    let buf := s.packetBuf ++ bytes
    readLoop buf (buf.length + 1) 0 s.table s.running []
  | .cmdRecv tag alive writeOk =>
    if writeOk then .normal ⟨s.packetBuf, insertTag tag alive s.table, s.running⟩ []
    else
      let n := notify_error s.table .io
      .normal ⟨s.packetBuf, n.1, false⟩ n.2
  | .queueClosed =>
    .normal ⟨s.packetBuf, [], false⟩ []

/-! Login handshake of `MikrotikDevice::connect` (the synchronous loop that
runs before the task is spawned).  The environment is a list of read
outcomes; `bytes []` is a zero-length read (EOF). -/

/-- One `read_buf` outcome during the handshake. -/
inductive HsRead
  | bytes (bs : List Byte)
  | ioErr
deriving DecidableEq, Repr

/-- Result of the handshake: `ok running leftover` is `connect` returning a
device handle (with the task's initial `running` flag and the retained
buffer); `fail` is `connect` returning an error.  `outOfReads` is the model
artifact of exhausting the supplied read outcomes mid-loop. -/
inductive HsResult
  | ok (running : Bool) (leftover : List Byte)
  | fail (e : DevError)
  | outOfReads
  | panicOOB
deriving DecidableEq, Repr

/-- Decides the `if let &[Category(Done), Tag(_)] = sentence` login-success
pattern. -/
def isLoginOk : List Word → Bool
  | [Word.category .done, Word.tag _] => true
  | _ => false

/-- Mirrors the handshake loop: read, break on EOF with `running = false`
(still returning a device), otherwise parse the accumulated buffer; a
`[!done, .tag]` sentence succeeds keeping the remainder, any other sentence is
`LoginFailed`, `Incomplete` keeps reading, any other parse error is a
protocol failure, and a read error is an IO failure. -/
def handshake (buf : List Byte) : List HsRead → HsResult
  | [] => .outOfReads
  | r :: rest =>
    match r with
    | .ioErr => .fail .io
    | .bytes bs =>
      if bs = [] then .ok false buf
      else
        match next_sentence (buf ++ bs) with
        | .ok sentence inc =>
          if isLoginOk sentence then .ok true ((buf ++ bs).drop inc)
          else .fail .loginFailed
        | .err e =>
          if e = .incomplete then handshake (buf ++ bs) rest
          else .fail (.protocol e)
        | .panicOOB => .panicOOB

/-! Tag assignment model for the live-tag-reuse claim: the `AtomicU16`
counter (`next_tag` / `tag_sequence`, wrapping `fetch_add`) together with the
key set of `running_commands`.  A submission assigns the current counter value
as the command's tag and registers it when the write succeeds
(`running_commands.insert`); a `Done` sentence removes a tag.  The initial
state is the one handed to the spawned task: the login consumed tag 0, so the
counter is 1 and the table empty. -/

/-- Counter plus table key set. -/
structure TagState where
  nextTag : Nat
  table : List Nat
deriving DecidableEq, Repr

/-- Tag assigned by `create_command` (`fetch_add(1)` on the wrapping 16-bit
counter) followed by the event loop's `insert` of that tag.  Returns the
assigned tag and the successor state. -/
def submitStep (s : TagState) : Nat × TagState :=
  (s.nextTag,
    { nextTag := (s.nextTag + 1) % 65536
      table := s.nextTag :: s.table.filter (fun k => k != s.nextTag) })

/-- Actions touching the tag table: a command submission or a `Done`-driven
removal. -/
inductive TagAct
  | submit
  | remove (t : Nat)
deriving DecidableEq, Repr

/-- Applies one action. -/
def applyAct (s : TagState) : TagAct → TagState
  | .submit => (submitStep s).2
  | .remove t => { s with table := s.table.filter (fun k => k != t) }

/-- Applies a list of actions from left to right. -/
def applyTrace (s : TagState) : List TagAct → TagState
  | [] => s
  | a :: rest => applyTrace (applyAct s a) rest

/-- Number of submissions in a trace. -/
def numSubmits : List TagAct → Nat
  | [] => 0
  | .submit :: rest => numSubmits rest + 1
  | .remove _ :: rest => numSubmits rest

/-- Initial state after the login handshake. -/
def tagInit : TagState := { nextTag := 1, table := [] }

/-- Single-step relation on tag states. -/
inductive TagStep : TagState → TagState → Prop
  | submit (s : TagState) : TagStep s (submitStep s).2
  | remove (s : TagState) (t : Nat) :
      TagStep s { s with table := s.table.filter (fun k => k != t) }

/-- Reachability of a tag state from the post-login initial state. -/
def TagReachable (s : TagState) : Prop :=
  Relation.ReflTransGen TagStep tagInit s

/-- Invariant tying the counter to the tags ever assigned: after the login and
`k - 1` further submissions the counter reads `k % 65536` and every live tag
was assigned as some earlier counter value `j % 65536`, `1 ≤ j < k`. -/
def TagInv (k : Nat) (s : TagState) : Prop :=
  1 ≤ k ∧ s.nextTag = k % 65536 ∧
    ∀ t ∈ s.table, ∃ j, 1 ≤ j ∧ j < k ∧ t = j % 65536

/-! Shared helper lemmas. -/

/-- A word starting with `=` does not carry the `.tag=` prefix. -/
theorem stripPre_tagPat_cons_eq (tail : List Byte) :
    stripPre (strBytes ".tag=") (61 :: tail) = none := by
  simp [stripPre, strBytes, List.isPrefixOf]

/-- Stripping the leading `=` from `=` followed by `tail`. -/
theorem stripPre_eqSign_cons (tail : List Byte) :
    stripPre (strBytes "=") (61 :: tail) = some tail := by
  simp [stripPre, strBytes, List.isPrefixOf]

/-- The `splitn(2, '=')` model finds no separator in a separator-free list. -/
theorem splitOnceEq_of_not_mem {k : List Byte} (h : (61 : Nat) ∉ k) :
    splitOnceEq k = (k, none) := by
  induction k with
  | nil => rfl
  | cons b rest ih =>
    have hb : b ≠ 61 := fun hb => h (hb ▸ List.mem_cons_self b rest)
    have hrest : (61 : Nat) ∉ rest := fun hm => h (List.mem_cons_of_mem _ hm)
    simp [splitOnceEq, hb, ih hrest]

/-- The `splitn(2, '=')` model splits at the first separator. -/
theorem splitOnceEq_append {k rest : List Byte} (h : (61 : Nat) ∉ k) :
    splitOnceEq (k ++ 61 :: rest) = (k, some rest) := by
  induction k with
  | nil => simp [splitOnceEq]
  | cons b tl ih =>
    have hb : b ≠ 61 := fun hb => h (hb ▸ List.mem_cons_self b tl)
    have htl : (61 : Nat) ∉ tl := fun hm => h (List.mem_cons_of_mem _ hm)
    simp [splitOnceEq, hb, ih htl]

/-- Sending to an alive registered tag delivers the message and keeps the
table. -/
theorem send_message_back_alive {tbl : Table} {t : Nat} (msg : Delivered)
    (h : tbl.lookup t = some true) :
    send_message_back tbl (some t) msg = .ok (tbl, [(t, msg)]) := by
  simp [send_message_back, h]

/-- Sending to an unregistered tag is the unknown-tag protocol error. -/
theorem send_message_back_unknown {tbl : Table} {t : Nat} (msg : Delivered)
    (h : tbl.lookup t = none) :
    send_message_back tbl (some t) msg = .error (.unknownTag t) := by
  simp [send_message_back, h]

/-- Removing an absent key from the table changes nothing. -/
theorem eraseTag_of_lookup_none {tbl : Table} {t : Nat}
    (h : tbl.lookup t = none) : eraseTag t tbl = tbl := by
  induction tbl with
  | nil => rfl
  | cons p l ih =>
    by_cases hpt : t = p.1
    · have hb : (t == p.1) = true := beq_iff_eq.mpr hpt
      simp [List.lookup, hb] at h
    · have hb : (t == p.1) = false := beq_eq_false_iff_ne.mpr hpt
      have h' : l.lookup t = none := by simpa [List.lookup, hb] using h
      have hne : (p.1 != t) = true := bne_iff_ne.mpr (Ne.symm hpt)
      have hstep : eraseTag t (p :: l) = p :: eraseTag t l := by
        simp [eraseTag, List.filter_cons, hne]
      rw [hstep, ih h']

/-- Tags notified by `notify_error` come from the table keys in order. -/
theorem notify_keys_sublist (tbl : Table) (e : DevError) :
    ((notify_error tbl e).2.map Prod.fst).Sublist (tbl.map Prod.fst) := by
  induction tbl with
  | nil => simp [notify_error]
  | cons p l ih =>
    rcases hp : p.2 with _ | _
    · simpa [notify_error, List.filterMap_cons, hp] using ih.cons p.1
    · simpa [notify_error, List.filterMap_cons, hp] using ih.cons₂ p.1

/-! Claim theorems. -/

set_option maxRecDepth 8000

/-- C1: the sentence parser is claimed to return `Incomplete` for every strict
truncation of a well-formed encoding, with no out-of-bounds panic.  The code
violates this: the one-byte buffer `[0x80]` is a strict truncation of the
well-formed sentence `0x80 0x80 ⟨128 payload bytes⟩ 0x00` (cut inside the
two-byte length prefix), yet `next_sentence` panics on the unchecked index
`data[1]` in `read_length` instead of signalling `Incomplete`.  Truncations
that end on a word boundary or inside a payload do return `Incomplete`, per
the remaining conjuncts. -/
theorem c1_truncated_inside_length_panics :
    next_sentence [0x80] = .panicOOB ∧
    next_sentence ([0x80, 0x80] ++ List.replicate 128 97 ++ [0]) =
      .ok [Word.messageWord (List.replicate 128 97)] 131 ∧
    ([0x80, 0x80] ++ List.replicate 128 97 ++ [0] : List Byte) =
      [0x80] ++ (0x80 :: (List.replicate 128 97 ++ [0])) ∧
    next_sentence [0x80, 0x80] = .err .incomplete ∧
    next_sentence [2, 97, 97] = .err .incomplete := by
  refine ⟨by decide, by decide, by decide, by decide, by decide⟩

/-- C2: encoding each of the nine listed length values with `write_len` and
decoding with `read_length` returns the original value together with a
consumed-byte count equal to the number of bytes written (1, 2, 3, 4 or 5 per
the size-class table). -/
theorem c2_length_roundtrip :
    (read_length (write_len 0) = .ok 0 1 ∧ (write_len 0).length = 1) ∧
    (read_length (write_len 0x7F) = .ok 0x7F 1 ∧ (write_len 0x7F).length = 1) ∧
    (read_length (write_len 0x80) = .ok 0x80 2 ∧ (write_len 0x80).length = 2) ∧
    (read_length (write_len 0x3FFF) = .ok 0x3FFF 2 ∧
      (write_len 0x3FFF).length = 2) ∧
    (read_length (write_len 0x4000) = .ok 0x4000 3 ∧
      (write_len 0x4000).length = 3) ∧
    (read_length (write_len 0x1FFFFF) = .ok 0x1FFFFF 3 ∧
      (write_len 0x1FFFFF).length = 3) ∧
    (read_length (write_len 0x200000) = .ok 0x200000 4 ∧
      (write_len 0x200000).length = 4) ∧
    (read_length (write_len 0xFFFFFFF) = .ok 0xFFFFFFF 4 ∧
      (write_len 0xFFFFFFF).length = 4) ∧
    (read_length (write_len 0x10000000) = .ok 0x10000000 5 ∧
      (write_len 0x10000000).length = 5) := by
  decide

/-- C6: the cancel constructor is claimed to emit the attribute word
`=tag=<decimal>` naming tag `t`.  The code passes the key bytes `tag=` to
`attribute`, so for tag 1234 the emitted attribute word is `=tag==1234`
(an extra `=`), which classifies as key `tag` with value `=1234` — not the
decimal digits `1234` the claim requires.  The first conjunct evaluates the
full command bytes, the second the classification of the attribute word, the
third records that the parsed value differs from the decimal digits. -/
theorem c6_cancel_attribute_word :
    (CommandBuilder.cancel 1234).data =
      [7] ++ strBytes "/cancel" ++ [9] ++ strBytes ".tag=1234" ++
        [10] ++ strBytes "=tag==1234" ++ [0] ∧
    Word.tryFrom (strBytes "=tag==1234") =
      .ok (.attributeWord (strBytes "tag") (some (strBytes "=1234"))) ∧
    strBytes "=1234" ≠ decimalBytes 1234 := by
  refine ⟨by decide, by rfl, by decide⟩

/-- C9: word classification distinguishes the empty-valued attribute `=k=`
(value `some []`) from the valueless attribute `=k` (value `none`) for any
key free of `=`, and the flag-attribute encoder emits exactly the word
`=key=`, which therefore round-trips to `some []`. -/
theorem c9_empty_vs_absent_value (k : List Byte) (h : (61 : Nat) ∉ k) :
    Word.tryFrom (strBytes "=" ++ k ++ strBytes "=") =
      .ok (.attributeWord k (some [])) ∧
    Word.tryFrom (strBytes "=" ++ k) = .ok (.attributeWord k none) ∧
    ∀ b : CommandBuilder, (b.flagAttribute k).cmd =
      b.cmd ++ write_len (strBytes "=" ++ k ++ strBytes "=").length ++
        (strBytes "=" ++ k ++ strBytes "=") := by
  have h1 : strBytes "=" ++ k ++ strBytes "=" = 61 :: (k ++ 61 :: []) := by
    simp [strBytes]
  have h2 : strBytes "=" ++ k = 61 :: k := by simp [strBytes]
  refine ⟨?_, ?_, fun b => rfl⟩
  · rw [h1]
    simp only [Word.tryFrom, stripPre_tagPat_cons_eq, stripPre_eqSign_cons,
      splitOnceEq_append h]
  · rw [h2]
    simp only [Word.tryFrom, stripPre_tagPat_cons_eq, stripPre_eqSign_cons,
      splitOnceEq_of_not_mem h]

/-- C9 witness at the spec's own flag key `password`. -/
theorem c9_empty_vs_absent_value_witness :
    Word.tryFrom (strBytes "=" ++ strBytes "password" ++ strBytes "=") =
      .ok (.attributeWord (strBytes "password") (some [])) ∧
    Word.tryFrom (strBytes "=" ++ strBytes "password") =
      .ok (.attributeWord (strBytes "password") none) :=
  ⟨(c9_empty_vs_absent_value (strBytes "password") (by decide)).1,
   (c9_empty_vs_absent_value (strBytes "password") (by decide)).2.1⟩

/-- C7: a Trap sentence with a registered tag `t`, a `message` attribute and
no `category` attribute delivers the missing-category protocol error to tag
`t`'s channel — and nothing else, in particular no trap result. -/
theorem c7_trap_without_category (t : Nat) (m : List Byte) (tbl : Table)
    (h : tbl.lookup t = some true) :
    process_sentence
      [Word.category .trap, Word.tag t,
        Word.attributeWord (strBytes "message") (some m)] tbl =
      .ok (tbl, [(t, .errorMsg (.protocol .missingCategoryInTrap))]) := by
  have hscan : trapScan
      [Word.tag t, Word.attributeWord (strBytes "message") (some m)]
      none none none = .ok (none, some m, some t) := by
    simp [trapScan, strBytes]
  simp only [process_sentence, hscan]
  exact send_message_back_alive _ h

/-- C7 witness: the spec's example sentence `[!trap, .tag=5,
=message=no such item]` against a table holding tag 5. -/
theorem c7_trap_without_category_witness :
    process_sentence
      [Word.category .trap, Word.tag 5,
        Word.attributeWord (strBytes "message") (some (strBytes "no such item"))]
      [(5, true)] =
      .ok ([(5, true)], [(5, .errorMsg (.protocol .missingCategoryInTrap))]) :=
  c7_trap_without_category 5 (strBytes "no such item") [(5, true)] (by decide)

/-- C10: processing a Fatal sentence only logs: the table is unchanged, no
message is delivered to any channel, and the event loop keeps running — shown
both on `process_sentence` for an arbitrary Fatal sentence and arbitrary
table, and on a full event-loop step reading the wire bytes of `!fatal`. -/
theorem c10_fatal_is_frame (rest : List Word) (tbl : Table) :
    process_sentence (Word.category .fatal :: rest) tbl = .ok (tbl, []) ∧
    step ⟨[], tbl, true⟩ (.readOk ([6] ++ strBytes "!fatal" ++ [0])) =
      .normal ⟨[], tbl, true⟩ [] := by
  refine ⟨rfl, ?_⟩
  simp only [step]
  rfl

/-- C3 counterexample: the claim says every connection-terminating error path
notifies each outstanding tag exactly once and drains the table.  Reading the
wire bytes of `[!re, .tag=7]` while only tag 5 is outstanding makes
`process_sentence` fail with an unknown-tag protocol error; the event loop
then stops (`running = false`) — a termination path — yet no message is
delivered to tag 5 and the table still holds its entry, refuting the claim at
this concrete input. -/
theorem c3_counterexample :
    step ⟨[], [(5, true)], true⟩
      (.readOk ([3] ++ strBytes "!re" ++ [6] ++ strBytes ".tag=7" ++ [0])) =
      .normal ⟨[], [(5, true)], false⟩ [] := by
  decide

/-- C3 amended: on the transport termination paths — EOF, read error, and
command-write error — `notify_error` runs: the loop stops, the table is fully
drained, every alive outstanding tag receives its error notification, and
(given distinct table keys) no tag is notified more than once.  The
sentence-processing protocol-error path is excluded: there the loop stops
without notifying (see the counterexample). -/
theorem c3_amended (s : ActorState) (ev : Event) (e : DevError)
    (hev : (ev = .readEof ∧ e = .connectionClosed) ∨
      (ev = .readErr ∧ e = .io) ∨
      (∃ t a, ev = .cmdRecv t a false ∧ e = .io)) :
    ∃ s', step s ev = .normal s' (notify_error s.table e).2 ∧
      s'.running = false ∧ s'.table = [] ∧
      (∀ t, (t, true) ∈ s.table →
        (t, Delivered.errorMsg e) ∈ (notify_error s.table e).2) ∧
      ((s.table.map Prod.fst).Nodup →
        ∀ t, ((notify_error s.table e).2.map Prod.fst).count t ≤ 1) := by
  have hmem : ∀ t, (t, true) ∈ s.table →
      (t, Delivered.errorMsg e) ∈ (notify_error s.table e).2 := by
    intro t ht
    exact List.mem_filterMap.mpr ⟨(t, true), ht, rfl⟩
  have hcount : (s.table.map Prod.fst).Nodup →
      ∀ t, ((notify_error s.table e).2.map Prod.fst).count t ≤ 1 := by
    intro hnd t
    exact List.nodup_iff_count_le_one.mp
      (List.Nodup.sublist (notify_keys_sublist s.table e) hnd) t
  obtain ⟨rfl, rfl⟩ | ⟨rfl, rfl⟩ | ⟨t, a, rfl, rfl⟩ := hev
  · exact ⟨⟨s.packetBuf, [], false⟩, rfl, rfl, rfl, hmem, hcount⟩
  · exact ⟨⟨s.packetBuf, [], false⟩, rfl, rfl, rfl, hmem, hcount⟩
  · exact ⟨⟨s.packetBuf, [], false⟩, rfl, rfl, rfl, hmem, hcount⟩

/-- C3 amended witness: EOF with tags 5 (alive) and 9 (receiver gone)
outstanding. -/
theorem c3_amended_witness :
    ∃ s', step ⟨[], [(5, true), (9, false)], true⟩ Event.readEof =
        .normal s' (notify_error [(5, true), (9, false)] .connectionClosed).2 ∧
      s'.running = false ∧ s'.table = [] ∧
      (∀ t, (t, true) ∈ ([(5, true), (9, false)] : Table) →
        (t, Delivered.errorMsg .connectionClosed) ∈
          (notify_error [(5, true), (9, false)] .connectionClosed).2) ∧
      ((([(5, true), (9, false)] : Table).map Prod.fst).Nodup →
        ∀ t, ((notify_error [(5, true), (9, false)]
          DevError.connectionClosed).2.map Prod.fst).count t ≤ 1) :=
  c3_amended ⟨[], [(5, true), (9, false)], true⟩ .readEof .connectionClosed
    (Or.inl ⟨rfl, rfl⟩)

/-- C5 counterexample: the claim says a Done sentence with an unregistered tag
yields the unknown-tag protocol error just like Reply and Trap.  Processing
`[!done, .tag=7]` against an empty table succeeds silently (the `remove` of an
absent key is a no-op), refuting the uniformity claim for Done. -/
theorem c5_counterexample :
    process_sentence [Word.category .done, Word.tag 7] ([] : Table) =
      .ok ([], []) := rfl

/-- C5 amended: a Reply or Trap sentence whose collected tag is not in the
table yields the unknown-tag protocol error, but a Done sentence with an
unregistered tag is processed successfully with no effect (entry removal of an
absent key) and no delivery. -/
theorem c5_amended (t : Nat) (tbl : Table) (h : tbl.lookup t = none) :
    (∀ rest attrs, replyScan rest none [] = .ok (some t, attrs) →
      process_sentence (Word.category .reply :: rest) tbl =
        .error (.unknownTag t)) ∧
    (∀ rest c m, trapScan rest none none none = .ok (c, m, some t) →
      process_sentence (Word.category .trap :: rest) tbl =
        .error (.unknownTag t)) ∧
    (∀ rest, process_sentence (Word.category .done :: Word.tag t :: rest) tbl =
      .ok (tbl, [])) := by
  refine ⟨?_, ?_, ?_⟩
  · intro rest attrs hscan
    simp only [process_sentence, hscan]
    exact send_message_back_unknown _ h
  · intro rest c m hscan
    simp only [process_sentence, hscan]
    exact send_message_back_unknown _ h
  · intro rest
    show Except.ok (eraseTag t tbl, []) = _
    rw [eraseTag_of_lookup_none h]

/-- C5 amended witness: tag 7 against the empty table. -/
theorem c5_amended_witness :
    process_sentence [Word.category .reply, Word.tag 7] ([] : Table) =
      .error (.unknownTag 7) ∧
    process_sentence [Word.category .trap, Word.tag 7] ([] : Table) =
      .error (.unknownTag 7) :=
  ⟨(c5_amended 7 [] rfl).1 [Word.tag 7] [] rfl,
   (c5_amended 7 [] rfl).2.1 [Word.tag 7] none none rfl⟩

/-- C4 counterexample: the claim says an EOF (zero-length read) during the
login handshake makes `connect` return an error.  The code instead breaks out
of the handshake loop and returns a device handle whose background task never
runs (`running = false`): the handshake result is `ok`, not `fail`. -/
theorem c4_counterexample :
    handshake [] [HsRead.bytes []] = .ok false [] := rfl

/-- C4 amended: after writing the login command, `connect` succeeds with a
live background task only when a parsed sentence matches exactly
`[Category(Done), Tag(_)]`; any other complete sentence fails with
`LoginFailed`, a non-`Incomplete` parse error fails with a protocol error, a
read error fails with a transport error — but an EOF returns a device handle
with a stopped task instead of an error. -/
theorem c4_amended :
    (∀ buf rest, handshake buf (HsRead.ioErr :: rest) = .fail .io) ∧
    (∀ buf rest, handshake buf (HsRead.bytes [] :: rest) = .ok false buf) ∧
    (∀ reads buf l, handshake buf reads = .ok true l →
      ∃ b s inc, next_sentence b = .ok s inc ∧ isLoginOk s = true ∧
        l = b.drop inc) ∧
    (∀ buf bs rest s inc, next_sentence (buf ++ bs) = .ok s inc →
      isLoginOk s = false → bs ≠ [] →
      handshake buf (HsRead.bytes bs :: rest) = .fail .loginFailed) ∧
    (∀ buf bs rest e, next_sentence (buf ++ bs) = .err e →
      e ≠ ProtocolError.incomplete → bs ≠ [] →
      handshake buf (HsRead.bytes bs :: rest) = .fail (.protocol e)) := by
  refine ⟨fun buf rest => rfl, fun buf rest => rfl, ?_, ?_, ?_⟩
  · intro reads
    induction reads with
    | nil =>
      intro buf l h
      simp [handshake] at h
    | cons r rest ih =>
      intro buf l h
      cases r with
      | ioErr => simp [handshake] at h
      | bytes bs =>
        by_cases hbs : bs = []
        · subst hbs
          simp [handshake] at h
        · simp only [handshake] at h
          rw [if_neg hbs] at h
          cases hns : next_sentence (buf ++ bs) with
          | ok s inc =>
            simp only [hns] at h
            cases hlo : isLoginOk s with
            | true =>
              simp [hlo] at h
              refine ⟨buf ++ bs, s, inc, hns, hlo, ?_⟩
              first
                | exact h
                | exact h.symm
            | false =>
              simp [hlo] at h
          | err e =>
            simp only [hns] at h
            by_cases he : e = .incomplete
            · subst he
              simp at h
              exact ih _ _ h
            · rw [if_neg he] at h
              cases h
          | panicOOB =>
            simp only [hns] at h
            cases h
  · intro buf bs rest s inc hns hlo hbs
    simp only [handshake]
    rw [if_neg hbs]
    simp only [hns, hlo]
    simp
  · intro buf bs rest e hns hne hbs
    simp only [handshake]
    rw [if_neg hbs]
    simp only [hns]
    rw [if_neg hne]

/-- C4 amended witness: a successful `[!done, .tag=0]` handshake, a
`LoginFailed` on the tag-less sentence `[!done]`, and a protocol failure on a
malformed length prefix `0xFF`. -/
theorem c4_amended_witness :
    (∃ b s inc, next_sentence b = .ok s inc ∧ isLoginOk s = true ∧
      ([] : List Byte) = b.drop inc) ∧
    handshake [] [HsRead.bytes ([5] ++ strBytes "!done" ++ [0])] =
      .fail .loginFailed ∧
    handshake [] [HsRead.bytes [0xFF]] = .fail (.protocol .prefixLength) :=
  ⟨c4_amended.2.2.1
      [HsRead.bytes ([5] ++ strBytes "!done" ++ [6] ++ strBytes ".tag=0" ++ [0])]
      [] [] (by decide),
   c4_amended.2.2.2.1 [] ([5] ++ strBytes "!done" ++ [0]) []
      [Word.category .done] 7 (by decide) (by decide) (by decide),
   c4_amended.2.2.2.2 [] [0xFF] [] .prefixLength (by decide) (by decide)
      (by decide)⟩

/-- The tag handed out by a submission is the current counter value. -/
theorem submitStep_fst (s : TagState) : (submitStep s).1 = s.nextTag := rfl

/-- Every chain of submissions is reachable. -/
theorem submit_chain_reachable (k : Nat) :
    TagReachable ((fun s => (submitStep s).2)^[k] tagInit) := by
  induction k with
  | zero => exact Relation.ReflTransGen.refl
  | succ n ih =>
    rw [Function.iterate_succ_apply']
    exact Relation.ReflTransGen.tail ih (TagStep.submit _)

/-- Counter value after `k` submissions from the post-login state. -/
theorem submit_chain_nextTag (k : Nat) :
    ((fun s => (submitStep s).2)^[k] tagInit).nextTag = (1 + k) % 65536 := by
  induction k with
  | zero => decide
  | succ n ih =>
    rw [Function.iterate_succ_apply']
    show (((fun s => (submitStep s).2)^[n] tagInit).nextTag + 1) % 65536 =
      (1 + (n + 1)) % 65536
    rw [ih]
    omega

/-- The first submitted tag (tag 1) stays in the table under pure
submissions. -/
theorem submit_chain_mem_one (k : Nat) (hk : 1 ≤ k) :
    1 ∈ ((fun s => (submitStep s).2)^[k] tagInit).table := by
  induction k with
  | zero => omega
  | succ n ih =>
    rw [Function.iterate_succ_apply']
    show 1 ∈ ((fun s => (submitStep s).2)^[n] tagInit).nextTag ::
      (((fun s => (submitStep s).2)^[n] tagInit).table.filter
        (fun j => j != ((fun s => (submitStep s).2)^[n] tagInit).nextTag))
    by_cases hn : 1 ≤ n
    · have h1 := ih hn
      by_cases he : ((fun s => (submitStep s).2)^[n] tagInit).nextTag = 1
      · rw [he]
        exact List.mem_cons_self _ _
      · refine List.mem_cons_of_mem _ (List.mem_filter.mpr ⟨h1, ?_⟩)
        exact bne_iff_ne.mpr fun hc => he hc.symm
    · have hn0 : n = 0 := by omega
      subst hn0
      decide

/-- C8 counterexample: the claim says a tag still present in the table is
never assigned to a new command, for arbitrarily long submission sequences.
After 65536 submissions with none completed the 16-bit counter has wrapped:
the state is reachable and the very tag the next submission would assign
(tag 1) is still live in the table. -/
theorem c8_counterexample :
    TagReachable ((fun s => (submitStep s).2)^[65536] tagInit) ∧
    (submitStep ((fun s => (submitStep s).2)^[65536] tagInit)).1 ∈
      ((fun s => (submitStep s).2)^[65536] tagInit).table := by
  constructor
  · exact submit_chain_reachable 65536
  · rw [submitStep_fst, submit_chain_nextTag 65536]
    rw [show ((1 + 65536) % 65536) = 1 by norm_num]
    exact submit_chain_mem_one 65536 (by norm_num)

/-- Base case of the tag invariant. -/
theorem tagInv_init : TagInv 1 tagInit := by
  refine ⟨le_refl 1, by decide, ?_⟩
  intro t ht
  simp [tagInit] at ht

/-- A submission preserves the tag invariant, advancing the submission
count. -/
theorem tagInv_submit {k : Nat} {s : TagState} (h : TagInv k s) :
    TagInv (k + 1) (applyAct s .submit) := by
  obtain ⟨hk, hnext, htbl⟩ := h
  refine ⟨by omega, ?_, ?_⟩
  · show (s.nextTag + 1) % 65536 = (k + 1) % 65536
    rw [hnext]
    omega
  · intro t ht
    simp only [applyAct, submitStep] at ht
    rcases List.mem_cons.mp ht with h1 | h2
    · exact ⟨k, hk, by omega, by rw [h1, hnext]⟩
    · obtain ⟨hmem, _⟩ := List.mem_filter.mp h2
      obtain ⟨j, hj1, hj2, hj3⟩ := htbl t hmem
      exact ⟨j, hj1, by omega, hj3⟩

/-- A removal preserves the tag invariant. -/
theorem tagInv_remove {k : Nat} {s : TagState} (h : TagInv k s) (t0 : Nat) :
    TagInv k (applyAct s (.remove t0)) := by
  obtain ⟨hk, hnext, htbl⟩ := h
  refine ⟨hk, hnext, ?_⟩
  intro t ht
  exact htbl t (List.mem_filter.mp ht).1

/-- The tag invariant is preserved along any trace. -/
theorem tagInv_trace {k : Nat} {s : TagState} (h : TagInv k s)
    (tr : List TagAct) : TagInv (k + numSubmits tr) (applyTrace s tr) := by
  induction tr generalizing k s with
  | nil => simpa using h
  | cons a rest ih =>
    cases a with
    | submit =>
      have hstep := ih (tagInv_submit h)
      have heq : k + numSubmits (TagAct.submit :: rest) =
          k + 1 + numSubmits rest := by
        simp [numSubmits]
        omega
      rw [heq]
      exact hstep
    | remove t0 =>
      have hstep := ih (tagInv_remove h t0)
      have heq : k + numSubmits (TagAct.remove t0 :: rest) =
          k + numSubmits rest := by
        simp [numSubmits]
      rw [heq]
      exact hstep

/-- C8 amended: the table never holds two entries for the same tag (the map
keys stay distinct in every reachable state), and the freshly assigned tag
cannot collide with a live one as long as the total number of submissions
since connect stays below 65536 — the wrap of the 16-bit counter is exactly
what the spec's design notes flag as the reuse risk, realised by the
counterexample. -/
theorem c8_amended :
    (∀ s, TagReachable s → s.table.Nodup) ∧
    (∀ tr : List TagAct, numSubmits tr < 65536 →
      (submitStep (applyTrace tagInit tr)).1 ∉ (applyTrace tagInit tr).table) := by
  constructor
  · intro s hs
    induction hs with
    | refl => simp [tagInit]
    | tail hab hbc ih =>
      cases hbc with
      | submit =>
        simp only [submitStep]
        refine List.nodup_cons.mpr ⟨?_, List.Nodup.filter _ ih⟩
        intro hmem
        obtain ⟨_, hne⟩ := List.mem_filter.mp hmem
        simp at hne
      | remove t => exact List.Nodup.filter _ ih
  · intro tr htr hmem
    obtain ⟨hk, hnext, htbl⟩ := tagInv_trace tagInv_init tr
    have h1 : (submitStep (applyTrace tagInit tr)).1 =
        (applyTrace tagInit tr).nextTag := rfl
    rw [h1] at hmem
    obtain ⟨j, hj1, hj2, hj3⟩ := htbl _ hmem
    rw [hnext] at hj3
    omega

/-- C8 amended witness: the empty trace state is duplicate-free and after a
single submission the next tag (2) is not the live tag (1). -/
theorem c8_amended_witness :
    (tagInit.table.Nodup) ∧
    (submitStep (applyTrace tagInit [TagAct.submit])).1 ∉
      (applyTrace tagInit [TagAct.submit]).table :=
  ⟨c8_amended.1 tagInit Relation.ReflTransGen.refl,
   c8_amended.2 [TagAct.submit] (by decide)⟩

end Mikrotik
